import Mathlib

/-!
Verification development for the arXiv news application
(`arxiv_news_app.py` and `arxiv_collector.py`).

The Python source is shallowly embedded: pure fragments become Lean
functions, stateful fragments become explicit state passing over a state
type, code that may raise is modelled with `Except`/`Option`, and the
behaviour of external services (translation backends, the text-to-speech
engines, the temp-file allocator) is abstracted into explicitly passed
oracles, so that every claim quantifies over all availability states of
those services.
-/

namespace ArxivNews

/-! ## Translator (`arxiv_news_app.py`, lines 55-213)

`TransEnv` packages the translation configuration (`CONFIG["translation"]`)
together with the observable behaviour of the three external services.

* `google = none` models `get_google_translator()` returning `None`
  (initialisation failed); `google = some g` models an available
  `googletrans` object whose `translate` call either returns a result
  (`Except.ok`) or raises (`Except.error`).
* `baiduSvc`/`doubaoSvc` model the HTTP round trip of
  `translate_with_baidu`/`translate_with_doubao`: `some dst` is a response
  carrying a translation, `none` covers every failure path inside those
  functions (request exception, error response) — those functions catch
  all exceptions internally and return the input text, so they are total
  `String`-valued functions here.
-/

structure TransEnv where
  translator_type : String
  baidu_app_id : String
  baidu_app_key : String
  doubao_api_key : String
  doubao_secret_key : String
  google : Option (String → Except Unit String)
  baiduSvc : String → Option String
  doubaoSvc : String → Option String

/-- Embedding of `Translator.translate_with_baidu` (lines 74-121): with
missing credentials or any request/response failure it returns the input
text, otherwise the translation from the response. -/
def translate_with_baidu (env : TransEnv) (text : String) : String :=
  if env.baidu_app_id = "" || env.baidu_app_key = "" then text
  else
    match env.baiduSvc text with
    | some dst => dst
    | none => text

/-- Embedding of `Translator.translate_with_doubao` (lines 123-179),
structurally identical to the baidu wrapper. -/
def translate_with_doubao (env : TransEnv) (text : String) : String :=
  if env.doubao_api_key = "" || env.doubao_secret_key = "" then text
  else
    match env.doubaoSvc text with
    | some dst => dst
    | none => text

/-- Embedding of the `try`-block body of `Translator.translate`
(lines 183-207).  A raise escaping the body is an `Except.error`; the
only raising step is the call on an available googletrans object. -/
def translate_body (env : TransEnv) (text : String) : Except Unit String :=
  if env.translator_type = "baidu" then
    Except.ok (translate_with_baidu env text)
  else if env.translator_type = "doubao" then
    Except.ok (translate_with_doubao env text)
  else
    match env.google with
    | some g =>
      match g text with
      | Except.ok r => Except.ok r
      | Except.error e => Except.error e
    | none =>
      let b := translate_with_baidu env text
      if b ≠ text then Except.ok b
      else
        let d := translate_with_doubao env text
        if d ≠ text then Except.ok d
        else Except.ok text

/-- Embedding of `Translator.translate` (lines 181-210): the body wrapped
in the outer `except Exception: return text` handler.  The function is
total, which is the shallow form of “never raises to its caller”. -/
def translate (env : TransEnv) (text : String) : String :=
  match translate_body env text with
  | Except.ok s => s
  | Except.error _ => text

/-! ## Category Builder and Paper Search
(`arxiv_news_app.py`, lines 878-949; identical logic in
`arxiv_collector.py`, lines 172-244) -/

/-- Embedding of the literal `category_map` dictionary of
`build_categories`, as an association list with the source's key order. -/
def category_map : List (String × List String) :=
  [("physics",
    ["physics.acc-ph", "physics.app-ph", "physics.atm-clus", "physics.atom-ph",
     "physics.bio-ph", "physics.chem-ph", "physics.class-ph", "physics.comp-ph",
     "physics.data-an", "physics.flu-dyn", "physics.gen-ph", "physics.geo-ph",
     "physics.hist-ph", "physics.ins-det", "physics.med-ph", "physics.optics",
     "physics.ed-ph", "physics.soc-ph", "physics.plasm-ph", "physics.pop-ph",
     "physics.space-ph"]),
   ("astro-ph",
    ["astro-ph.CO", "astro-ph.EP", "astro-ph.GA", "astro-ph.HE",
     "astro-ph.IM", "astro-ph.SR"])]

/-- Contribution of one field token to the category list: the loop body of
`build_categories` either extends with the registered sub-categories or
appends the token verbatim. -/
def catExpand (f : String) : List String :=
  match category_map.lookup f with
  | some subs => subs
  | none => [f]

/-- Embedding of `build_categories` (lines 882-903): the accumulation loop
over the field list. -/
def build_categories (fields : List String) : List String :=
  fields.foldl (fun acc f => acc ++ catExpand f) []

/-- Value of `CONFIG["fields"]` in the source. -/
def CONFIG_fields : List String := ["physics", "astro-ph"]

/-- Value of `CONFIG["max_results"]` in the source (never reassigned:
`save_config` does not touch it and no configuration file is read back). -/
def CONFIG_max_results : Nat := 10

/-- Raw result record as delivered by the external index client, with the
fields `search_papers` reads. -/
structure RawResult where
  short_id : String
  title : String
  authors : List String
  summary : String
  categories : List String
  published : String
  pdf_url : String

/-- Paper dictionary built by `search_papers` from a raw result
(lines 932-941). -/
structure Paper where
  id : String
  title : String
  authors : List String
  abstract : String
  categories : List String
  published : String
  url : String
  pdf_url : String

/-- Field-by-field construction of the paper dictionary from a raw
result. -/
def toPaper (r : RawResult) : Paper :=
  { id := r.short_id, title := r.title, authors := r.authors,
    abstract := r.summary, categories := r.categories,
    published := r.published, url := r.pdf_url, pdf_url := r.pdf_url }

/-- Embedding of the result loop of `search_papers` (lines 928-946): keep a
raw result when some expanded category occurs among its categories, and
break as soon as the accumulated length reaches `CONFIG["max_results"]`. -/
def searchLoop (cap : Nat) (cats : List String) :
    List RawResult → List Paper → List Paper
  | [], acc => acc
  | r :: rs, acc =>
    if cats.any (fun c => r.categories.contains c) then
      let acc' := acc ++ [toPaper r]
      if cap ≤ acc'.length then acc' else searchLoop cap cats rs acc'
    else searchLoop cap cats rs acc

/-- Embedding of `search_papers`: the raw result stream is a parameter
standing for whatever the external index returns. -/
def search_papers (cap : Nat) (fields : List String)
    (raw : List RawResult) : List Paper :=
  searchLoop cap (build_categories fields) raw []

/-! ## Summary Builder cleanup (`arxiv_collector.py`, lines 253-266)

The three `re.sub` passes of `summarize_paper` are embedded as character
scanners.  Python's default regex mode is modelled: `.` does not match a
newline, and the `?` quantifiers are non-greedy (a match closes at the
first eligible fence character). -/

/-- Scanner for the tail `.*?\$` of the inline-math pattern: starting just
after an opening dollar, returns the remainder after the first closing
dollar, failing at a newline or at the end of input. -/
def findDollarEnd : List Char → Option (List Char)
  | [] => none
  | c :: rest =>
    if c = '$' then some rest
    else if c = '\n' then none
    else findDollarEnd rest

/-- Fuelled scanner for `re.sub(r'\$.*?\$', '', s)`: deletes every
non-greedy dollar-delimited span, keeping a dollar that has no closing
fence.  The fuel only forces termination; one unit is spent per consumed
character, so `l.length` units always suffice. -/
def stripDollarMathF : Nat → List Char → List Char
  | 0, l => l
  | _ + 1, [] => []
  | fuel + 1, c :: rest =>
    if c = '$' then
      match findDollarEnd rest with
      | some rest' => stripDollarMathF fuel rest'
      | none => c :: stripDollarMathF fuel rest
    else c :: stripDollarMathF fuel rest

/-- Embedding of `re.sub(r'\$.*?\$', '', s)` on character lists. -/
def stripDollarMath (l : List Char) : List Char :=
  stripDollarMathF l.length l

/-- Scanner for the tail `.*?\}` of the markup-command pattern. -/
def findBraceEnd : List Char → Option (List Char)
  | [] => none
  | c :: rest =>
    if c = '}' then some rest
    else if c = '\n' then none
    else findBraceEnd rest

/-- Matcher for `[a-zA-Z]+\{.*?\}` after a backslash: one or more ASCII
letters, an opening brace, then the non-greedy brace scanner. -/
def matchCmdAfterSlash (l : List Char) : Option (List Char) :=
  let letters := l.takeWhile (fun c => c.isAlpha)
  if letters.isEmpty then none
  else
    match l.drop letters.length with
    | '{' :: rest2 => findBraceEnd rest2
    | _ => none

/-- Fuelled scanner for `re.sub(r'\\[a-zA-Z]+\{.*?\}', '', s)`. -/
def stripLatexCmdF : Nat → List Char → List Char
  | 0, l => l
  | _ + 1, [] => []
  | fuel + 1, c :: rest =>
    if c = '\\' then
      match matchCmdAfterSlash rest with
      | some rest' => stripLatexCmdF fuel rest'
      | none => c :: stripLatexCmdF fuel rest
    else c :: stripLatexCmdF fuel rest

/-- Embedding of `re.sub(r'\\[a-zA-Z]+\{.*?\}', '', s)` on character
lists. -/
def stripLatexCmd (l : List Char) : List Char :=
  stripLatexCmdF l.length l

/-- Whitespace class of the `\s` pattern (ASCII part, which covers every
input the source feeds it). -/
def isPySpace (c : Char) : Bool :=
  c = ' ' || c = '\t' || c = '\n' || c = '\r' || c = '\x0b' || c = '\x0c'

/-- Run-collapsing scanner with a flag recording whether the previous
character belonged to a whitespace run already replaced by one space. -/
def collapseWsAux : Bool → List Char → List Char
  | _, [] => []
  | prevWs, c :: rest =>
    if isPySpace c then
      if prevWs then collapseWsAux true rest
      else ' ' :: collapseWsAux true rest
    else c :: collapseWsAux false rest

/-- Embedding of `re.sub(r'\s+', ' ', s)`. -/
def collapseWs (l : List Char) : List Char :=
  collapseWsAux false l

/-- Embedding of the Python `str.strip()` call: drop whitespace at both
ends. -/
def pyStrip (l : List Char) : List Char :=
  ((l.dropWhile isPySpace).reverse.dropWhile isPySpace).reverse

/-- Cleanup pipeline of `summarize_paper` applied to one text field, in
source order: dollar-math removal, markup-command removal, whitespace
collapse, trim. -/
def clean_text (s : String) : String :=
  String.mk (pyStrip (collapseWs (stripLatexCmd (stripDollarMath s.data))))

/-! ## Speech Synthesizer (`arxiv_collector.py`, lines 289-317) -/

/-- Observable outcome of `text_to_speech`: which engine wrote the audio
file, or an exception propagating to the caller. -/
inductive TtsResult where
  | edgeFile (path : String)
  | gttsFile (path : String)
  | raised
deriving DecidableEq

/-- Availability state of the two engines: `edge = none` is an
`ImportError` on `edge_tts`, `edge = some b` is an importable engine whose
synthesis succeeds exactly when `b`; `gtts` tells whether the fallback
path (import plus `save`) succeeds. -/
structure TtsEnv where
  edge : Option Bool
  gtts : Bool

/-- Embedding of `text_to_speech`: the `try` body uses edge-tts; the
`except ImportError` arm falls back to gtts (whose own failures
propagate); the `except Exception` arm re-raises, so an importable but
failing edge-tts never reaches the fallback. -/
def text_to_speech (env : TtsEnv) (output_path : String) : TtsResult :=
  match env.edge with
  | some true => TtsResult.edgeFile output_path
  | some false => TtsResult.raised
  | none =>
    if env.gtts then TtsResult.gttsFile output_path else TtsResult.raised

/-! ## Pregeneration and playback state (`arxiv_news_app.py`)

Shared mutable state of the application relevant to the speech maps:
`speech_generating` (flag dictionary, modelled as the list of positions
whose key is present), `pregenerated_speech` (position to temp-file path),
and the set of temp files on disk.  Temp-file paths are abstracted to
naturals handed out by a counter, which models the freshness guarantee of
`tempfile.NamedTemporaryFile`. -/

structure AppState where
  generating : List Nat
  pregen : List (Nat × Nat)
  files : List Nat
  counter : Nat
deriving DecidableEq

/-- State at application start: both dictionaries empty, no temp files. -/
def initState : AppState := ⟨[], [], [], 0⟩

/-- Behaviour of the per-position external steps: `tempOk i` tells whether
`tempfile.NamedTemporaryFile` succeeds while processing position `i`, and
`synthOk i` whether the edge-tts subprocess exits successfully. -/
structure GenEnv where
  tempOk : Nat → Bool
  synthOk : Nat → Bool

/-- Dictionary-style update for the assignment
`self.pregenerated_speech[i] = path`. -/
def pregenUpdate (i p : Nat) (l : List (Nat × Nat)) : List (Nat × Nat) :=
  (i, p) :: l.filter (fun e => e.1 ≠ i)

/-- Loop body of `play_latest_papers.pregenerate_speech`
(lines 991-1043) for one position: set the flag, create the temp file,
run the synthesis subprocess inside `try`, record the path on success or
unlink the temp file on failure, and clear the flag in `finally`.  Only
the subprocess is guarded: a temp-file creation failure escapes the loop
body, so the `error` result carries the state at the moment the worker
thread dies — with the flag still set. -/
def processPosition (env : GenEnv) (i : Nat) (st : AppState) :
    Except AppState AppState :=
  let st1 := { st with generating := i :: st.generating }
  if env.tempOk i then
    let p := st1.counter
    let st2 := { st1 with files := p :: st1.files, counter := st1.counter + 1 }
    let st3 :=
      if env.synthOk i then
        { st2 with pregen := pregenUpdate i p st2.pregen }
      else
        { st2 with files := st2.files.erase p }
    Except.ok { st3 with generating := st3.generating.filter (fun x => x != i) }
  else
    Except.error st1

/-- Walk of the pregeneration worker over the remaining positions; an
uncaught exception stops the walk. -/
def pregenWorker (env : GenEnv) : List Nat → AppState → AppState
  | [], st => st
  | i :: rest, st =>
    match processPosition env i st with
    | Except.ok st' => pregenWorker env rest st'
    | Except.error st' => st'

/-- Positions visited by the worker of `play_latest_papers`: every index
from the second item onward (`if i == 0: continue`). -/
def workerPositions (numPapers : Nat) : List Nat :=
  (List.range numPapers).drop 1

/-- Embedding of the background worker started by `play_latest_papers`:
it walks positions `1..numPapers-1`. -/
def pregenerate_speech (env : GenEnv) (numPapers : Nat) (st : AppState) :
    AppState :=
  pregenWorker env (workerPositions numPapers) st

/-- Cleanup performed at the start of `play_latest_papers` (lines 977-984)
and of the auto-search worker: unlink every mapped file, then reset both
dictionaries. -/
def cleanupState (st : AppState) : AppState :=
  { st with
    files := st.pregen.foldl (fun fs e => fs.erase e.2) st.files,
    pregen := [], generating := [] }

/-- Loop body of the startup worker `auto_search_and_pregenerate`
(lines 278-329).  There the whole body sits inside `try`, and the
`except` arm unlinks `temp_file_path` — a local that, when temp-file
creation itself raised, still holds the path produced by the previous
iteration.  `lastTemp` threads that local through the walk. -/
def autoStep (env : GenEnv) (i : Nat) (st : AppState) (lastTemp : Option Nat) :
    AppState × Option Nat :=
  let st1 := { st with generating := i :: st.generating }
  if env.tempOk i then
    let p := st1.counter
    let st2 := { st1 with files := p :: st1.files, counter := st1.counter + 1 }
    let st3 :=
      if env.synthOk i then
        { st2 with pregen := pregenUpdate i p st2.pregen }
      else
        { st2 with files := st2.files.erase p }
    ({ st3 with generating := st3.generating.filter (fun x => x != i) }, some p)
  else
    let st2 :=
      match lastTemp with
      | some q =>
        if q ∈ st1.files then { st1 with files := st1.files.erase q } else st1
      | none => st1
    ({ st2 with generating := st2.generating.filter (fun x => x != i) }, lastTemp)

/-- Walk of the startup worker over all positions (it does not skip the
first item). -/
def autoWorker (env : GenEnv) : List Nat → AppState → Option Nat → AppState
  | [], st, _ => st
  | i :: rest, st, lt =>
    let r := autoStep env i st lt
    autoWorker env rest r.1 r.2

/-- Embedding of the pregeneration phase of `auto_search_and_pregenerate`:
cleanup, then the walk over positions `0..numPapers-1`. -/
def auto_pregenerate (env : GenEnv) (numPapers : Nat) (st : AppState) :
    AppState :=
  autoWorker env (List.range numPapers) (cleanupState st) none

/-- Observable outcome of `play_paper_speech` for one position. -/
inductive PlayOutcome where
  | playedPregen (p : Nat)
  | missingFile
  | playedSync
  | syncFailed
deriving DecidableEq

/-- Embedding of `ArxivNewsApp.play_paper_speech` (lines 1066-1147): with
a map entry, play the recorded file if it exists (the entry and the file
are kept), otherwise log an error; with no entry, create a temp file,
synthesize synchronously, play, and unlink — a failure anywhere in the
synchronous path is caught by the thread's outer handler, leaking the
temp file. -/
def play_paper_speech (env : GenEnv) (i : Nat) (st : AppState) :
    AppState × PlayOutcome :=
  match st.pregen.lookup i with
  | some p =>
    if p ∈ st.files then (st, PlayOutcome.playedPregen p)
    else (st, PlayOutcome.missingFile)
  | none =>
    if env.tempOk i then
      let p := st.counter
      let st1 := { st with files := p :: st.files, counter := st.counter + 1 }
      if env.synthOk i then
        ({ st1 with files := st1.files.erase p }, PlayOutcome.playedSync)
      else
        (st1, PlayOutcome.syncFailed)
    else
      (st, PlayOutcome.syncFailed)

/-- Operations touching the two speech dictionaries during a run of the
interactive application: starting a playback session (cleanup followed by
the background worker) and playing one position. -/
inductive SpeechOp where
  | session (env : GenEnv) (numPapers : Nat)
  | play (env : GenEnv) (i : Nat)

/-- Effect of one operation on the shared state. -/
def applyOp (st : AppState) : SpeechOp → AppState
  | SpeechOp.session env n => pregenerate_speech env n (cleanupState st)
  | SpeechOp.play env i => (play_paper_speech env i st).1

/-- State reached from application start after a sequence of
operations. -/
def runOps (ops : List SpeechOp) : AppState :=
  ops.foldl applyOp initState

/-! ## Playback-advance wait (`open_play_window.next_paper`, lines 642-688) -/

/-- Immediate decision of the `next_paper` callback. -/
inductive NextAction where
  | atEnd
  | advance
  | wait
deriving DecidableEq

/-- Embedding of the branch structure of `next_paper`: past the last paper
report the end; with the Generation-in-progress flag set for the next
position open the wait window; otherwise advance at once. -/
def next_paper_action (numPapers currentIndex : Nat)
    (generating : Nat → Bool) : NextAction :=
  let next := currentIndex + 1
  if numPapers ≤ next then NextAction.atEnd
  else if generating next then NextAction.wait
  else NextAction.advance

/-- Observation made by one 500 ms tick of `check_speech_status`: the flag
still set, the flag cleared, or the wait window already cancelled by the
user. -/
inductive PollEvent where
  | flagSet
  | flagClear
  | cancel
deriving DecidableEq

/-- Embedding of the `check_speech_status` polling chain over a trace of
observations: `some k` means the advance fires at the `k`-th tick, `none`
that the chain ends without advancing (cancellation, or the trace runs
out while the flag is still set). -/
def pollLoop : List PollEvent → Option Nat
  | [] => none
  | PollEvent.cancel :: _ => none
  | PollEvent.flagClear :: _ => some 0
  | PollEvent.flagSet :: rest => (pollLoop rest).map (· + 1)

/-! ## Concrete environments and inputs used by witnesses and
counterexamples -/

/-- Backend state where google raises and both HTTP backends fail. -/
def allFailEnv : TransEnv :=
  { translator_type := "google", baidu_app_id := "id", baidu_app_key := "key",
    doubao_api_key := "k", doubao_secret_key := "s",
    google := some (fun _ => Except.error ()),
    baiduSvc := fun _ => none, doubaoSvc := fun _ => none }

/-- Backend state where an available google returns its input unchanged
while baidu would translate to `"X"`. -/
def silentGoogleEnv : TransEnv :=
  { translator_type := "google", baidu_app_id := "id", baidu_app_key := "key",
    doubao_api_key := "k", doubao_secret_key := "s",
    google := some (fun t => Except.ok t),
    baiduSvc := fun _ => some "X", doubaoSvc := fun _ => some "X" }

/-- Backend state with google unavailable and a working baidu backend. -/
def chainEnv : TransEnv :=
  { translator_type := "google", baidu_app_id := "id", baidu_app_key := "key",
    doubao_api_key := "", doubao_secret_key := "",
    google := none, baiduSvc := fun _ => some "X", doubaoSvc := fun _ => none }

/-- Backend state whose selector is the unrecognized string
`"klingon"`. -/
def klingonEnv : TransEnv :=
  { translator_type := "klingon", baidu_app_id := "id", baidu_app_key := "key",
    doubao_api_key := "", doubao_secret_key := "",
    google := none, baiduSvc := fun _ => some "X", doubaoSvc := fun _ => none }

/-- Raw index result carrying one configured category. -/
def rawSample : RawResult :=
  { short_id := "2501.00001", title := "Pulsar timing", authors := ["A"],
    summary := "We study pulsars.", categories := ["astro-ph.HE"],
    published := "2025-01-01", pdf_url := "u" }

/-- Generation environment where temp-file creation fails exactly at
position 1 and synthesis always succeeds. -/
def envBad : GenEnv := { tempOk := fun i => i != 1, synthOk := fun _ => true }

/-- Generation environment where every external step succeeds. -/
def envAllOk : GenEnv := { tempOk := fun _ => true, synthOk := fun _ => true }

/-- Invariant tying the speech map to the file system, strengthened with
the freshness bounds delivered by the temp-path counter. -/
def StrongInv (st : AppState) : Prop :=
  (∀ e ∈ st.pregen, e.2 ∈ st.files) ∧
  (∀ e ∈ st.pregen, e.2 < st.counter) ∧
  (∀ f ∈ st.files, f < st.counter)

/-! ## Helper lemmas -/

/-- Failure of the baidu round trip makes the wrapper return the input. -/
theorem translate_with_baidu_of_svc_none (env : TransEnv) (text : String)
    (hb : env.baiduSvc text = none) : translate_with_baidu env text = text := by
  unfold translate_with_baidu
  rw [hb]
  split <;> rfl

/-- Failure of the doubao round trip makes the wrapper return the input. -/
theorem translate_with_doubao_of_svc_none (env : TransEnv) (text : String)
    (hd : env.doubaoSvc text = none) : translate_with_doubao env text = text := by
  unfold translate_with_doubao
  rw [hd]
  split <;> rfl

/-! ## Claim theorems -/

/-- C1: for every input string and every backend availability state,
`Translator.translate` returns a string — it is a total `String`-valued
function, with every raising step of the `try` body caught by the outer
handler — and when all backends fail (google unavailable or raising, both
HTTP backends failing) it returns exactly the original input. -/
theorem translate_allfail_returns_input (env : TransEnv) (text : String)
    (hg : env.google = none ∨
      ∃ g, env.google = some g ∧ g text = Except.error ())
    (hb : env.baiduSvc text = none)
    (hd : env.doubaoSvc text = none) :
    translate env text = text := by
  have hb' := translate_with_baidu_of_svc_none env text hb
  have hd' := translate_with_doubao_of_svc_none env text hd
  unfold translate translate_body
  by_cases h1 : env.translator_type = "baidu"
  · simp [h1, hb']
  · by_cases h2 : env.translator_type = "doubao"
    · simp [h1, h2, hd']
    · rcases hg with hg | ⟨g, hgs, hge⟩
      · simp [h1, h2, hg, hb', hd']
      · simp [h1, h2, hgs, hge]

/-- Witness for C1: a concrete state where google raises and both HTTP
backends fail returns the input unchanged. -/
theorem translate_allfail_returns_input_witness :
    translate allFailEnv "neutron star" = "neutron star" :=
  translate_allfail_returns_input allFailEnv "neutron star"
    (Or.inr ⟨_, rfl, rfl⟩) rfl rfl

/-- Counterexample for C2: with the default selector and an available
Google backend that returns the input unchanged (a silent failure), the
code returns the unchanged input at once even though the next backend in
priority (baidu) would return the distinct translation `"X"` — no further
backend is tried. -/
theorem translate_silent_failure_no_fallback :
    translate silentGoogleEnv "hello" = "hello" ∧
    translate_with_baidu silentGoogleEnv "hello" = "X" ∧
    ("X" : String) ≠ "hello" :=
  ⟨rfl, rfl, by decide⟩

/-- C2 (amended): the unchanged-output fallback exists only inside the
default chain and only once the Google translator object is unavailable:
there baidu is tried, its result is kept when it differs from the input,
otherwise doubao is tried the same way, and when both return the input
unchanged the original text is returned.  An explicitly selected baidu or
doubao backend, and an available Google backend, have their result
returned as-is with no fallback. -/
theorem translate_fallback_chain (env : TransEnv) (text : String) :
    (env.translator_type = "baidu" →
        translate env text = translate_with_baidu env text) ∧
    (env.translator_type = "doubao" →
        translate env text = translate_with_doubao env text) ∧
    (env.translator_type ≠ "baidu" → env.translator_type ≠ "doubao" →
      (∀ g r, env.google = some g → g text = Except.ok r →
          translate env text = r) ∧
      (env.google = none →
        (translate_with_baidu env text ≠ text →
            translate env text = translate_with_baidu env text) ∧
        (translate_with_baidu env text = text →
          translate_with_doubao env text ≠ text →
            translate env text = translate_with_doubao env text) ∧
        (translate_with_baidu env text = text →
          translate_with_doubao env text = text →
            translate env text = text))) := by
  refine ⟨fun h1 => ?_, fun h2 => ?_, fun h1 h2 => ⟨fun g r hgs hok => ?_, fun hg => ⟨fun hbne => ?_, fun hbe hdne => ?_, fun hbe hde => ?_⟩⟩⟩
  · simp [translate, translate_body, h1]
  · by_cases h1 : env.translator_type = "baidu"
    · simp [translate, translate_body, h1, h2, translate_with_baidu,
        translate_with_doubao] at *
    · simp [translate, translate_body, h1, h2]
  · simp [translate, translate_body, h1, h2, hgs, hok]
  · simp [translate, translate_body, h1, h2, hg, hbne]
  · simp [translate, translate_body, h1, h2, hg, hbe, hdne]
  · simp [translate, translate_body, h1, h2, hg, hbe, hde]

/-- Witness for C2 (amended): in the default chain with google
unavailable, a baidu result differing from the input is returned. -/
theorem translate_fallback_chain_witness : translate chainEnv "hi" = "X" := by
  have h := ((translate_fallback_chain chainEnv "hi").2.2
    (by decide) (by decide)).2 rfl
  exact (h.1 (by decide)).trans (by decide)

/-- C10: every selector other than `"baidu"` and `"doubao"` (not only
`"google"`) takes the default branch, so `translate` behaves exactly as
with the `"google"` selector. -/
theorem translate_ignores_unknown_selector (env : TransEnv) (text : String)
    (h1 : env.translator_type ≠ "baidu") (h2 : env.translator_type ≠ "doubao") :
    translate env text = translate { env with translator_type := "google" } text := by
  simp only [translate, translate_body]
  rw [if_neg h1, if_neg h2]
  rfl

/-- Witness for C10: the unrecognized selector `"klingon"` produces the
same result as `"google"` on a concrete backend state. -/
theorem translate_ignores_unknown_selector_witness :
    translate klingonEnv "hi" =
      translate { klingonEnv with translator_type := "google" } "hi" :=
  translate_ignores_unknown_selector klingonEnv "hi" (by decide) (by decide)

/-- Length bound of the search loop: while the accumulator is below the
cap, the loop never grows beyond the cap (the break fires right after the
append that reaches it). -/
theorem searchLoop_length (cap : Nat) (cats : List String) :
    ∀ (rs : List RawResult) (acc : List Paper), acc.length < cap →
      (searchLoop cap cats rs acc).length ≤ cap := by
  intro rs
  induction rs with
  | nil => intro acc h; exact Nat.le_of_lt h
  | cons r rs ih =>
    intro acc h
    unfold searchLoop
    split
    · dsimp only
      split
      · simpa using Nat.succ_le_of_lt h
      · next hc => exact ih _ (Nat.lt_of_not_le hc)
    · exact ih acc h

/-- Category filter of the search loop: every accumulated paper keeps a
category meeting the expanded list. -/
theorem searchLoop_mem (cap : Nat) (cats : List String) :
    ∀ (rs : List RawResult) (acc : List Paper),
      (∀ p ∈ acc, ∃ c ∈ cats, p.categories.contains c = true) →
      ∀ p ∈ searchLoop cap cats rs acc,
        ∃ c ∈ cats, p.categories.contains c = true := by
  intro rs
  induction rs with
  | nil => intro acc h; exact h
  | cons r rs ih =>
    intro acc h
    unfold searchLoop
    split
    · next hmatch =>
      have hr : ∃ c ∈ cats, r.categories.contains c = true := by
        simpa using List.any_eq_true.mp hmatch
      have h' : ∀ p ∈ acc ++ [toPaper r],
          ∃ c ∈ cats, p.categories.contains c = true := by
        intro p hp
        rcases List.mem_append.mp hp with hp | hp
        · exact h p hp
        · have : p = toPaper r := by simpa using hp
          subst this
          exact hr
      dsimp only
      split
      · exact h'
      · exact ih _ h'
    · exact ih acc h

/-- C3: for every positive cap — the configured cap in the source is the
constant `CONFIG_max_results = 10` — and every raw result stream,
`search_papers` returns at most `cap` papers, and every returned paper
shares a category with the expanded category list of the configured
fields. -/
theorem search_papers_cap_and_categories (cap : Nat) (fields : List String)
    (raw : List RawResult) (hcap : 1 ≤ cap) :
    (search_papers cap fields raw).length ≤ cap ∧
    ∀ p ∈ search_papers cap fields raw,
      ∃ c ∈ build_categories fields, p.categories.contains c = true :=
  ⟨searchLoop_length cap _ raw [] hcap,
   searchLoop_mem cap _ raw [] (by simp)⟩

/-- Witness for C3 at the source configuration values. -/
theorem search_papers_cap_and_categories_witness :
    (search_papers CONFIG_max_results CONFIG_fields [rawSample]).length ≤
      CONFIG_max_results ∧
    ∀ p ∈ search_papers CONFIG_max_results CONFIG_fields [rawSample],
      ∃ c ∈ build_categories CONFIG_fields, p.categories.contains c = true :=
  search_papers_cap_and_categories CONFIG_max_results CONFIG_fields
    [rawSample] (by decide)

/-- Accumulation shape of `build_categories`: the loop concatenates the
per-field contributions in order. -/
theorem build_categories_eq_flatten (fields : List String) :
    build_categories fields = (fields.map catExpand).flatten := by
  suffices h : ∀ acc : List String,
      fields.foldl (fun acc f => acc ++ catExpand f) acc =
        acc ++ (fields.map catExpand).flatten by
    simpa using h []
  induction fields with
  | nil => intro acc; simp
  | cons f fs ih => intro acc; simp [List.foldl, ih, List.flatten_cons]

/-- Multiplicity of a token in the built category list is the sum of its
multiplicities in the per-field contributions. -/
theorem build_categories_count (fields : List String) (t : String) :
    (build_categories fields).count t =
      (fields.map (fun f => (catExpand f).count t)).sum := by
  rw [build_categories_eq_flatten]
  induction fields with
  | nil => simp
  | cons f fs ih => simp [List.flatten_cons, List.count_append, ih]

/-- Counterexample for C7: `"physics.optics"` is an unrecognized token of
the field list `["physics", "physics.optics"]` (it is not a key of the
category map), yet it occurs twice in the output — once from the
expansion of `"physics"` and once verbatim — not exactly once. -/
theorem build_categories_duplicate_cex :
    ("physics.optics" ∈ (["physics", "physics.optics"] : List String)) ∧
    category_map.lookup "physics.optics" = none ∧
    (build_categories ["physics", "physics.optics"]).count "physics.optics"
      = 2 :=
  ⟨by decide, by decide, by decide⟩

/-- C7 (amended): the output contains every sub-category registered for a
recognized umbrella token of the input, and every unrecognized input
token appears verbatim in the output; its exact multiplicity is the sum
of the per-field contributions (its own occurrences plus its occurrences
inside expansions of recognized tokens present), so it is exactly one
occurrence whenever the token occurs once in the input and does not
collide with an expansion. -/
theorem build_categories_spec (fields : List String) :
    (∀ u subs, category_map.lookup u = some subs → u ∈ fields →
      ∀ s ∈ subs, s ∈ build_categories fields) ∧
    (∀ t ∈ fields, category_map.lookup t = none →
      t ∈ build_categories fields) ∧
    (∀ t, (build_categories fields).count t =
      (fields.map (fun f => (catExpand f).count t)).sum) := by
  refine ⟨?_, ?_, build_categories_count fields⟩
  · intro u subs hu hmem s hs
    rw [build_categories_eq_flatten, List.mem_flatten]
    exact ⟨catExpand u, List.mem_map_of_mem _ hmem, by simp [catExpand, hu, hs]⟩
  · intro t ht hnone
    rw [build_categories_eq_flatten, List.mem_flatten]
    exact ⟨catExpand t, List.mem_map_of_mem _ ht, by simp [catExpand, hnone]⟩

/-- Witness for C7 (amended): the configured fields contain the umbrella
`"physics"`, so its registered sub-category `"physics.optics"` is in the
output. -/
theorem build_categories_spec_witness :
    "physics.optics" ∈ build_categories CONFIG_fields :=
  (build_categories_spec CONFIG_fields).1 "physics" _ rfl (by decide)
    "physics.optics" (by decide)

/-- C8: the cleanup pipeline removes dollar-delimited inline math and
collapses whitespace runs, so `"Title with $x^2$ math"` becomes exactly
`"Title with math"`; the second input shows the non-greedy pairing of the
fences (a greedy match would also delete the text between the two math
spans). -/
theorem clean_text_strips_inline_math :
    clean_text "Title with $x^2$ math" = "Title with math" ∧
    clean_text "a $x$ b $y$ c" = "a b c" :=
  ⟨rfl, rfl⟩

/-- Counterexample for C9: with edge-tts importable but failing at
synthesis, and a gtts fallback that would succeed, `text_to_speech`
raises to its caller — so it does not raise "if and only if both engines
fail": here the fallback engine works and is never tried. -/
theorem text_to_speech_raise_without_fallback_cex :
    text_to_speech { edge := some false, gtts := true } "out.mp3" =
      TtsResult.raised ∧
    text_to_speech { edge := none, gtts := true } "out.mp3" =
      TtsResult.gttsFile "out.mp3" :=
  ⟨rfl, rfl⟩

/-- C9 (amended): the gtts fallback runs exactly when edge-tts is
unavailable (its import fails); `text_to_speech` raises iff the engine
that actually runs fails — either edge-tts is importable and its
synthesis fails, or edge-tts is unavailable and the gtts path fails. -/
theorem text_to_speech_spec (env : TtsEnv) (path : String) :
    (text_to_speech env path = TtsResult.raised ↔
      (env.edge = some false ∨ (env.edge = none ∧ env.gtts = false))) ∧
    (env.edge = none → env.gtts = true →
      text_to_speech env path = TtsResult.gttsFile path) := by
  obtain ⟨edge, gtts⟩ := env
  constructor
  · cases edge with
    | none => cases gtts <;> simp [text_to_speech]
    | some b => cases b <;> cases gtts <;> simp [text_to_speech]
  · intro h1 h2
    simp at h1
    subst h1
    cases gtts with
    | false => simp at h2
    | true => rfl

/-- Witness for C9 (amended): with edge-tts unavailable and a working
gtts, the fallback engine writes the file. -/
theorem text_to_speech_spec_witness :
    text_to_speech { edge := none, gtts := true } "a.mp3" =
      TtsResult.gttsFile "a.mp3" :=
  (text_to_speech_spec { edge := none, gtts := true } "a.mp3").2 rfl rfl

/-- Advance fires only at a tick observing the cleared flag: every
earlier tick observed the flag still set. -/
theorem pollLoop_eq_some_spec :
    ∀ (evs : List PollEvent) (k : Nat), pollLoop evs = some k →
      (∀ j, j < k → evs.get? j = some PollEvent.flagSet) ∧
      evs.get? k = some PollEvent.flagClear := by
  intro evs
  induction evs with
  | nil => intro k h; simp [pollLoop] at h
  | cons e rest ih =>
    intro k h
    cases e with
    | cancel => simp [pollLoop] at h
    | flagClear =>
      have hk : k = 0 := by simpa [pollLoop] using h.symm
      subst hk
      exact ⟨fun j hj => absurd hj (Nat.not_lt_zero j), rfl⟩
    | flagSet =>
      rw [pollLoop] at h
      obtain ⟨k', hk', hkk⟩ := Option.map_eq_some'.mp h
      subst hkk
      obtain ⟨h1, h2⟩ := ih k' hk'
      refine ⟨fun j hj => ?_, h2⟩
      cases j with
      | zero => rfl
      | succ j => exact h1 j (Nat.lt_of_succ_lt_succ hj)

/-- Cancellation observed before any cleared flag stops the chain without
an advance. -/
theorem pollLoop_cancel_none :
    ∀ (evs : List PollEvent) (j : Nat),
      evs.get? j = some PollEvent.cancel →
      (∀ i, i < j → evs.get? i = some PollEvent.flagSet) →
      pollLoop evs = none := by
  intro evs
  induction evs with
  | nil => intro j h _; simp at h
  | cons e rest ih =>
    intro j h hset
    cases j with
    | zero =>
      have he : e = PollEvent.cancel := by simpa using h
      subst he
      rfl
    | succ j =>
      have he : e = PollEvent.flagSet := by
        simpa using hset 0 (Nat.succ_pos j)
      subst he
      have : pollLoop rest = none :=
        ih j (by simpa using h)
          (fun i hi => by simpa using hset (i + 1) (Nat.succ_lt_succ hi))
      simp [pollLoop, this]

/-- C4: with the Generation-in-progress flag clear for the next position,
`next_paper` advances at once; with it set, `next_paper` enters the wait
window, and the polling chain advances exactly at the first tick that
observes the flag cleared — never before, and never once a cancellation
is observed first. -/
theorem next_paper_wait_spec (numPapers currentIndex : Nat)
    (generating : Nat → Bool) (evs : List PollEvent) (k j : Nat) :
    (currentIndex + 1 < numPapers → generating (currentIndex + 1) = false →
      next_paper_action numPapers currentIndex generating =
        NextAction.advance) ∧
    (currentIndex + 1 < numPapers → generating (currentIndex + 1) = true →
      next_paper_action numPapers currentIndex generating =
        NextAction.wait) ∧
    (pollLoop evs = some k →
      (∀ i, i < k → evs.get? i = some PollEvent.flagSet) ∧
      evs.get? k = some PollEvent.flagClear) ∧
    (evs.get? j = some PollEvent.cancel →
      (∀ i, i < j → evs.get? i = some PollEvent.flagSet) →
      pollLoop evs = none) := by
  refine ⟨fun hlt hflag => ?_, fun hlt hflag => ?_,
    pollLoop_eq_some_spec evs k, pollLoop_cancel_none evs j⟩
  · simp [next_paper_action, Nat.not_le.mpr hlt, hflag]
  · simp [next_paper_action, Nat.not_le.mpr hlt, hflag]

/-- Witness for C4: three papers, flag set exactly at position 1; the
callback waits, and a set-then-clear observation trace advances at the
second tick. -/
theorem next_paper_wait_spec_witness :
    next_paper_action 3 0 (fun n => decide (n = 1)) = NextAction.wait ∧
    ([PollEvent.flagSet, PollEvent.flagClear].get? 1 =
      some PollEvent.flagClear) := by
  have h := next_paper_wait_spec 3 0 (fun n => decide (n = 1))
    [PollEvent.flagSet, PollEvent.flagClear] 1 0
  exact ⟨h.2.1 (by decide) (by decide), (h.2.2.1 rfl).2⟩

/-- Flag bookkeeping of the playback-session worker: when temp-file
creation succeeds at every visited position, any flag left set at the end
was set before the walk and belongs to no visited position. -/
theorem pregenWorker_generating (env : GenEnv) :
    ∀ (ps : List Nat) (st : AppState),
      (∀ j ∈ ps, env.tempOk j = true) →
      ∀ x ∈ (pregenWorker env ps st).generating,
        x ∈ st.generating ∧ x ∉ ps := by
  intro ps
  induction ps with
  | nil => intro st _ x hx; exact ⟨hx, by simp⟩
  | cons i rest ih =>
    intro st h x hx
    have hti : env.tempOk i = true := h i (by simp)
    rw [pregenWorker, processPosition] at hx
    simp only [hti, if_true] at hx
    have hrest : ∀ j ∈ rest, env.tempOk j = true :=
      fun j hj => h j (by simp [hj])
    cases hsy : env.synthOk i with
    | true =>
      simp only [hsy, if_true] at hx
      obtain ⟨hx', hnr⟩ := ih _ hrest x hx
      have hx'' := List.mem_filter.mp hx'
      have hxi : x ≠ i := bne_iff_ne.mp hx''.2
      refine ⟨?_, ?_⟩
      · rcases List.mem_cons.mp hx''.1 with h' | h'
        · exact absurd h' hxi
        · exact h'
      · simp [hxi, hnr]
    | false =>
      simp only [hsy, if_false, Bool.false_eq_true] at hx
      obtain ⟨hx', hnr⟩ := ih _ hrest x hx
      have hx'' := List.mem_filter.mp hx'
      have hxi : x ≠ i := bne_iff_ne.mp hx''.2
      refine ⟨?_, ?_⟩
      · rcases List.mem_cons.mp hx''.1 with h' | h'
        · exact absurd h' hxi
        · exact h'
      · simp [hxi, hnr]

/-- Counterexample for C5: with temp-file creation failing at position 1
(and synthesis always fine), the session worker over three papers dies at
position 1 and its Generation-in-progress flag stays set — the
`finally` that deletes the flag guards only the synthesis subprocess, not
the temp-file creation that precedes it. -/
theorem pregen_flag_stuck_cex :
    envBad.tempOk 1 = false ∧
    (pregenerate_speech envBad 3 initState).generating = [1] :=
  ⟨rfl, rfl⟩

/-- C5 (amended): whenever processing reaches the guarded synthesis step
at every visited position — that is, temp-file creation succeeds there —
the worker clears the Generation-in-progress flag of every visited
position, whether the synthesis subprocess succeeded or failed; a
temp-file creation failure instead kills the worker with the current
position's flag left set. -/
theorem pregen_flags_cleared (env : GenEnv) (numPapers : Nat) (st : AppState)
    (h : ∀ j ∈ workerPositions numPapers, env.tempOk j = true) :
    ∀ i ∈ workerPositions numPapers,
      i ∉ (pregenerate_speech env numPapers st).generating := by
  intro i hi hmem
  exact (pregenWorker_generating env _ st h i hmem).2 hi

/-- Witness for C5 (amended): with every step succeeding, position 1's
flag is clear after the worker over three papers finishes. -/
theorem pregen_flags_cleared_witness :
    1 ∉ (pregenerate_speech envAllOk 3 initState).generating :=
  pregen_flags_cleared envAllOk 3 initState (by decide) 1 (by decide)

/-- Unlinking a batch of files only removes files. -/
theorem mem_foldl_erase :
    ∀ (l : List (Nat × Nat)) (fs : List Nat) (x : Nat),
      x ∈ l.foldl (fun a e => a.erase e.2) fs → x ∈ fs := by
  intro l
  induction l with
  | nil => intro fs x hx; exact hx
  | cons e rest ih =>
    intro fs x hx
    exact List.mem_of_mem_erase (ih _ x hx)

/-- Cleanup empties the map and only removes files, so the invariant
survives it. -/
theorem strongInv_cleanup (st : AppState) (h : StrongInv st) :
    StrongInv (cleanupState st) := by
  obtain ⟨-, -, h3⟩ := h
  refine ⟨by simp [cleanupState], by simp [cleanupState], ?_⟩
  intro f hf
  exact h3 f (mem_foldl_erase _ _ _ hf)

/-- Entries of the dictionary update are the new pair and surviving old
pairs. -/
theorem mem_pregenUpdate (i p : Nat) (l : List (Nat × Nat)) (e : Nat × Nat)
    (h : e ∈ pregenUpdate i p l) : e = (i, p) ∨ e ∈ l := by
  rcases List.mem_cons.mp h with h | h
  · exact Or.inl h
  · exact Or.inr (List.mem_filter.mp h).1

/-- Session worker preserves the strengthened invariant, also through a
step at which it dies. -/
theorem strongInv_pregenWorker (env : GenEnv) :
    ∀ (ps : List Nat) (st : AppState), StrongInv st →
      StrongInv (pregenWorker env ps st) := by
  intro ps
  induction ps with
  | nil => intro st h; exact h
  | cons i rest ih =>
    intro st h
    obtain ⟨h1, h2, h3⟩ := h
    rw [pregenWorker, processPosition]
    cases hti : env.tempOk i with
    | false => exact ⟨h1, h2, h3⟩
    | true =>
      cases hsy : env.synthOk i with
      | true =>
        simp only [if_true]
        apply ih
        refine ⟨?_, ?_, ?_⟩
        · intro e he
          rcases mem_pregenUpdate _ _ _ _ he with rfl | he'
          · exact List.mem_cons_self _ _
          · exact List.mem_cons_of_mem _ (h1 e he')
        · intro e he
          rcases mem_pregenUpdate _ _ _ _ he with rfl | he'
          · exact Nat.lt_succ_self _
          · exact Nat.lt_succ_of_lt (h2 e he')
        · intro f hf
          rcases List.mem_cons.mp hf with rfl | hf'
          · exact Nat.lt_succ_self _
          · exact Nat.lt_succ_of_lt (h3 f hf')
      | false =>
        simp only [Bool.false_eq_true, if_false]
        apply ih
        rw [List.erase_cons_head]
        exact ⟨h1, fun e he => Nat.lt_succ_of_lt (h2 e he),
          fun f hf => Nat.lt_succ_of_lt (h3 f hf)⟩

/-- Playing one position preserves the strengthened invariant. -/
theorem strongInv_play (env : GenEnv) (i : Nat) (st : AppState)
    (h : StrongInv st) : StrongInv (play_paper_speech env i st).1 := by
  obtain ⟨h1, h2, h3⟩ := h
  rw [play_paper_speech]
  cases hl : st.pregen.lookup i with
  | some p =>
    simp only [hl]
    split <;> exact ⟨h1, h2, h3⟩
  | none =>
    simp only [hl]
    cases hti : env.tempOk i with
    | false =>
      simp only [hti, Bool.false_eq_true, if_false]
      exact ⟨h1, h2, h3⟩
    | true =>
      simp only [hti, if_true]
      cases hsy : env.synthOk i with
      | true =>
        simp only [hsy, if_true]
        have he : (st.counter :: st.files).erase st.counter = st.files :=
          List.erase_cons_head _ _
        refine ⟨fun e hm => ?_, fun e hm => Nat.lt_succ_of_lt (h2 e hm),
          fun f hf => ?_⟩
        · show e.2 ∈ (st.counter :: st.files).erase st.counter
          rw [he]
          exact h1 e hm
        · rw [show ((st.counter :: st.files).erase st.counter : List Nat) =
            st.files from he] at hf
          exact Nat.lt_succ_of_lt (h3 f hf)
      | false =>
        simp only [hsy, Bool.false_eq_true, if_false]
        refine ⟨fun e hm => List.mem_cons_of_mem _ (h1 e hm),
          fun e hm => Nat.lt_succ_of_lt (h2 e hm), ?_⟩
        intro f hf
        rcases List.mem_cons.mp hf with rfl | hf'
        · exact Nat.lt_succ_self _
        · exact Nat.lt_succ_of_lt (h3 f hf')

/-- Every state reachable through playback-session operations satisfies
the strengthened invariant. -/
theorem strongInv_runOps (ops : List SpeechOp) : StrongInv (runOps ops) := by
  suffices h : ∀ (l : List SpeechOp) (st : AppState), StrongInv st →
      StrongInv (l.foldl applyOp st) by
    refine h ops initState ⟨?_, ?_, ?_⟩ <;> simp [initState]
  intro l
  induction l with
  | nil => intro st h; exact h
  | cons op rest ih =>
    intro st h
    cases op with
    | session env n =>
      exact ih _ (strongInv_pregenWorker env _ _ (strongInv_cleanup st h))
    | play env i => exact ih _ (strongInv_play env i st h)

/-- Lookup success in an association list exhibits a member pair. -/
theorem mem_of_lookup_eq_some_nat :
    ∀ (l : List (Nat × Nat)) (k v : Nat), l.lookup k = some v → (k, v) ∈ l := by
  intro l
  induction l with
  | nil => intro k v h; simp [List.lookup] at h
  | cons e rest ih =>
    intro k v h
    obtain ⟨a, b⟩ := e
    rw [List.lookup] at h
    cases hk : k == a with
    | true =>
      rw [hk] at h
      have hv : b = v := by simpa using h
      have hka : k = a := eq_of_beq hk
      subst hv; subst hka
      exact List.mem_cons_self _ _
    | false =>
      rw [hk] at h
      exact List.mem_cons_of_mem _ (ih k v h)

/-- Counterexample for C6: in the startup auto-pregeneration worker, the
`except` arm unlinks the stale `temp_file_path` local, so a temp-file
creation failure at position 1 deletes the file recorded for position 0:
the map then holds key 0 for a path absent from disk, and playing
position 0 reports a missing file instead of playing or falling back. -/
theorem pregen_map_dangling_entry_cex :
    (auto_pregenerate envBad 2 initState).pregen.lookup 0 = some 0 ∧
    0 ∉ (auto_pregenerate envBad 2 initState).files ∧
    (play_paper_speech envBad 0 (auto_pregenerate envBad 2 initState)).2 =
      PlayOutcome.missingFile :=
  ⟨by decide, by decide, by decide⟩

/-- C6 (amended): across every sequence of playback-session operations
(session start with cleanup and background pregeneration, and plays),
each key of the Pregenerated Speech Map refers to a file still on disk;
a position with a map entry plays its recorded file, and a position with
no entry falls back to synchronous synthesis (successful when the
synchronous steps succeed) rather than failing.  The startup
auto-pregeneration worker is excluded: its stale temp-path cleanup can
break the invariant, as the counterexample shows. -/
theorem pregen_map_invariant_and_fallback (ops : List SpeechOp) (env : GenEnv)
    (i : Nat) :
    (∀ e ∈ (runOps ops).pregen, e.2 ∈ (runOps ops).files) ∧
    ((runOps ops).pregen.lookup i = none → env.tempOk i = true →
      env.synthOk i = true →
      (play_paper_speech env i (runOps ops)).2 = PlayOutcome.playedSync) ∧
    (∀ p, (runOps ops).pregen.lookup i = some p →
      (play_paper_speech env i (runOps ops)).2 = PlayOutcome.playedPregen p) := by
  have hinv := strongInv_runOps ops
  refine ⟨hinv.1, ?_, ?_⟩
  · intro hnone hti hsy
    rw [play_paper_speech]
    simp [hnone, hti, hsy]
  · intro p hp
    have hmem : (i, p) ∈ (runOps ops).pregen :=
      mem_of_lookup_eq_some_nat _ i p hp
    have hfile : p ∈ (runOps ops).files := hinv.1 (i, p) hmem
    rw [play_paper_speech]
    simp [hp, hfile]

/-- Witness for C6 (amended): after one session over two papers, position
0 has no map entry (the worker starts at the second item), and playing it
synthesizes synchronously. -/
theorem pregen_map_invariant_and_fallback_witness :
    (play_paper_speech envAllOk 0 (runOps [SpeechOp.session envAllOk 2])).2 =
      PlayOutcome.playedSync :=
  (pregen_map_invariant_and_fallback [SpeechOp.session envAllOk 2]
    envAllOk 0).2.1 (by decide) rfl rfl

end ArxivNews
